import Mathlib

/-!
# Verification development for the Kafka ingestion source (`src/sources/kafka.rs`)

Shallow embedding of the connector's data model and operations:

* `KafkaSourceConfig` — the connector configuration struct with its serde defaults.
* `RawMessage` — a borrowed broker message at the interface the code uses
  (`payload`, `key`, `topic`, `partition`, `offset`, `timestamp().to_millis()`).
* `mapMessage` — the record-mapping portion of the per-message closure in
  `kafka_source` (the chain of `log.insert` calls).
* `processMessage` / `runLoop` — the stream pipeline
  `stream().take_until(shutdown).then(...).for_each(...)`, with the external
  effects (offset storage, downstream send, the wall clock) supplied as
  explicit per-iteration inputs, and the emitted internal events plus the
  `store_offset` / `out.send` effects recorded in an ordered trace.
* `create_consumer` / `kafka_source` — the client-option construction and the
  startup path, with the external `ClientConfig::create` step modelled from
  the spec.

Bytes are `Nat` lists (each entry a byte value), machine integers are `Int`,
timestamps are milliseconds as `Int`.
-/

/-- A value stored in a log event field.  `Value::from(Bytes)` becomes
`bytes`, string values become `str`, `i32`/`i64` become `int`, a resolved
`DateTime<Utc>` becomes `timestamp` (milliseconds since the epoch), and
`Value::Null` becomes `null`. -/
inductive Value where
  | bytes : List Nat → Value
  | str : String → Value
  | int : Int → Value
  | timestamp : Int → Value
  | null : Value
deriving DecidableEq, Repr

/-- A log event: an ordered collection of named fields.  `LogEvent::insert`
replaces the value when the field already exists, otherwise appends it. -/
abbrev LogRec := List (String × Value)

/-- `log.insert(field, value)`: replace an existing field or append a new one. -/
def LogRec.insert : LogRec → String → Value → LogRec
  | [], k, v => [(k, v)]
  | (k0, v0) :: rest, k, v =>
    if k0 = k then (k, v) :: rest else (k0, v0) :: LogRec.insert rest k v

/-- Field lookup in a log event. -/
def LogRec.get : LogRec → String → Option Value
  | [], _ => none
  | (k0, v0) :: rest, k => if k0 = k then some v0 else LogRec.get rest k

/-- Modelled from the spec: the global `log_schema()` message key
(the fixed "message" field of §6, not defined under `src/`). -/
def logSchemaMessageKey : String := "message"

/-- Modelled from the spec: the global `log_schema()` timestamp key
(the fixed "timestamp" field of §6). -/
def logSchemaTimestampKey : String := "timestamp"

/-- Modelled from the spec: the global `log_schema()` source-type key
(the fixed "source type" field of §6). -/
def logSchemaSourceTypeKey : String := "source_type"

/-- The connector configuration (`KafkaSourceConfig`).  Field paths
(`LookupBuf`) are modelled as plain strings; the opaque authentication
settings are modelled as the list of client options their `apply` sets. -/
structure KafkaSourceConfig where
  bootstrap_servers : String
  topics : List String
  group_id : String
  auto_offset_reset : String
  session_timeout_ms : Nat
  socket_timeout_ms : Nat
  fetch_wait_max_ms : Nat
  commit_interval_ms : Nat
  key_field : String
  topic_key : String
  partition_key : String
  offset_key : String
  librdkafka_options : Option (List (String × String))
  auth : List (String × String)
deriving DecidableEq, Repr

def default_session_timeout_ms : Nat := 10000

def default_socket_timeout_ms : Nat := 60000

def default_fetch_wait_max_ms : Nat := 100

def default_commit_interval_ms : Nat := 5000

def default_auto_offset_reset : String := "largest"

def default_key_field : String := "message_key"

def default_topic_key : String := "topic"

def default_partition_key : String := "partition"

def default_offset_key : String := "offset"

/-- `impl Default for KafkaSourceConfig`. -/
def KafkaSourceConfig.default : KafkaSourceConfig where
  bootstrap_servers := ""
  topics := []
  group_id := ""
  auto_offset_reset := default_auto_offset_reset
  session_timeout_ms := default_session_timeout_ms
  socket_timeout_ms := default_socket_timeout_ms
  fetch_wait_max_ms := default_fetch_wait_max_ms
  commit_interval_ms := default_commit_interval_ms
  key_field := default_key_field
  topic_key := default_topic_key
  partition_key := default_partition_key
  offset_key := default_offset_key
  librdkafka_options := none
  auth := []

/-- A raw broker message at the interface the source uses: `payload()` and
`key()` are optional byte slices, `topic()`, `partition()`, `offset()` are
copied verbatim, and `timestamp` is the result of
`msg.timestamp().to_millis()` (the client library returns `None` when the
broker assigned no timestamp). -/
structure RawMessage where
  payload : Option (List Nat)
  key : Option (List Nat)
  topic : String
  partition : Int
  offset : Int
  timestamp : Option Int
deriving DecidableEq, Repr

/-- `msg.payload_len()`: the payload length, `0` when the payload is absent. -/
def RawMessage.payload_len (m : RawMessage) : Nat :=
  match m.payload with
  | none => 0
  | some p => p.length

/-- Modelled from the spec: the range of milliseconds convertible to a valid
calendar time by the external date-time library
(`Utc.timestamp_millis_opt(millis).latest()` is `Some` exactly on the
library's representable range of about ±262,000 years). -/
def chronoMillisValid (m : Int) : Bool :=
  -8334632851200000 ≤ m && m ≤ 8210266876799999

/-- The timestamp resolution at lines 185–189:
`msg.timestamp().to_millis().and_then(|millis|
Utc.timestamp_millis_opt(millis).latest()).unwrap_or_else(Utc::now)`.
`now` is the wall clock's value at mapping time, in milliseconds. -/
def resolveTimestamp (ts : Option Int) (now : Int) : Int :=
  match ts with
  | none => now
  | some m => if chronoMillisValid m then m else now

/-- The Unicode replacement character used for lossy UTF-8 decoding. -/
def replacementChar : Char := '�'

/-- Whether a byte is a UTF-8 continuation byte (`0x80..=0xBF`). -/
def isCont (b : Nat) : Bool := 0x80 ≤ b && b ≤ 0xBF

/-- One step of lossy UTF-8 decoding, following the maximal-subpart
substitution the Rust standard library's `String::from_utf8_lossy` uses:
given a leading byte and the bytes after it, returns the decoded character
(or one replacement character for a maximal invalid subpart) and how many
further bytes beyond the leading one were consumed. -/
def utf8DecodeStep (b : Nat) (rest : List Nat) : Char × Nat :=
  if b < 0x80 then (Char.ofNat b, 0)
  else if b < 0xC2 then (replacementChar, 0)
  else if b ≤ 0xDF then
    match rest with
    | b1 :: _ =>
      if isCont b1 then (Char.ofNat ((b - 0xC0) * 64 + (b1 - 0x80)), 1)
      else (replacementChar, 0)
    | [] => (replacementChar, 0)
  else if b ≤ 0xEF then
    let lo2 := if b = 0xE0 then 0xA0 else 0x80
    let hi2 := if b = 0xED then 0x9F else 0xBF
    match rest with
    | b1 :: rest1 =>
      if lo2 ≤ b1 && b1 ≤ hi2 then
        match rest1 with
        | b2 :: _ =>
          if isCont b2 then
            (Char.ofNat ((b - 0xE0) * 4096 + (b1 - 0x80) * 64 + (b2 - 0x80)), 2)
          else (replacementChar, 1)
        | [] => (replacementChar, 1)
      else (replacementChar, 0)
    | [] => (replacementChar, 0)
  else if b ≤ 0xF4 then
    let lo2 := if b = 0xF0 then 0x90 else 0x80
    let hi2 := if b = 0xF4 then 0x8F else 0xBF
    match rest with
    | b1 :: rest1 =>
      if lo2 ≤ b1 && b1 ≤ hi2 then
        match rest1 with
        | b2 :: rest2 =>
          if isCont b2 then
            match rest2 with
            | b3 :: _ =>
              if isCont b3 then
                (Char.ofNat ((b - 0xF0) * 262144 + (b1 - 0x80) * 4096 +
                  (b2 - 0x80) * 64 + (b3 - 0x80)), 3)
              else (replacementChar, 2)
            | [] => (replacementChar, 2)
          else (replacementChar, 1)
        | [] => (replacementChar, 1)
      else (replacementChar, 0)
    | [] => (replacementChar, 0)
  else (replacementChar, 0)

/-- Lossy UTF-8 decoding of a byte list into characters
(`String::from_utf8_lossy`). -/
def utf8LossyChars : List Nat → List Char
  | [] => []
  | b :: rest =>
    let s := utf8DecodeStep b rest
    s.1 :: utf8LossyChars (rest.drop s.2)
termination_by l => l.length
decreasing_by
  simp only [List.length_cons, List.length_drop]
  omega

/-- `String::from_utf8_lossy(key).to_string()`. -/
def utf8Lossy (l : List Nat) : String := ⟨utf8LossyChars l⟩

/-- The record-mapping portion of the per-message closure in `kafka_source`
(lines 176–208): starting from `Event::new_empty_log()`, the sequence of
`log.insert` calls in source order, given the payload bytes, the raw
message, the configured field paths and the wall clock at mapping time. -/
def mapMessage (config : KafkaSourceConfig) (msg : RawMessage)
    (payload : List Nat) (now : Int) : LogRec :=
  let log : LogRec := []
  let log := log.insert logSchemaMessageKey (Value.bytes payload)
  let log := log.insert logSchemaTimestampKey
    (Value.timestamp (resolveTimestamp msg.timestamp now))
  let log := log.insert logSchemaSourceTypeKey (Value.str "kafka")
  let msg_key := match msg.key with
    | some key => Value.str (utf8Lossy key)
    | none => Value.null
  let log := log.insert config.key_field msg_key
  let log := log.insert config.topic_key (Value.str msg.topic)
  let log := log.insert config.partition_key (Value.int msg.partition)
  let log := log.insert config.offset_key (Value.int msg.offset)
  log

/-- An entry in the ordered trace of one run of the stream pipeline:
the emitted internal events (`KafkaEventFailed`, `KafkaEventReceived`,
`KafkaOffsetUpdateFailed`, the `error!` log on sink failure) together with
the external effects (`consumer.store_offset`, `out.send`). -/
inductive TraceEv where
  | kafkaEventFailed
  | kafkaEventReceived (byteSize : Nat)
  | storeOffset (topic : String) (partition offset : Int) (ok : Bool)
  | kafkaOffsetUpdateFailed
  | sendAttempt (record : LogRec)
  | sinkSendError
deriving DecidableEq, Repr

instance {ε α : Type} [DecidableEq ε] [DecidableEq α] : DecidableEq (Except ε α) := fun
  | Except.error e, Except.error f =>
    if h : e = f then Decidable.isTrue (by rw [h]) else Decidable.isFalse (by simp [h])
  | Except.ok a, Except.ok b =>
    if h : a = b then Decidable.isTrue (by rw [h]) else Decidable.isFalse (by simp [h])
  | Except.error _, Except.ok _ => Decidable.isFalse (by simp)
  | Except.ok _, Except.error _ => Decidable.isFalse (by simp)

/-- One iteration's inputs: the item the broker stream yielded
(`Err` = transport error, as in the `rdkafka` stream), and the outcomes of
the external effects should they be invoked this iteration — the wall clock
(`now`, ms), whether `consumer.store_offset` succeeds, and whether
`out.send` succeeds. -/
structure LoopInput where
  msg : Except Unit RawMessage
  now : Int
  storeOk : Bool
  sendOk : Bool
deriving DecidableEq, Repr

/-- The body of the `.then(...)` closure (lines 161–217): from one stream
item to the `Result<Event, ()>` it produces, plus the ordered trace of
events emitted and effects performed.  `Err(())` (here `none`) covers all
three skip paths: transport error, absent payload, offset-store failure. -/
def processMessage (config : KafkaSourceConfig) (input : LoopInput) :
    Option LogRec × List TraceEv :=
  match input.msg with
  | Except.error _ => (none, [TraceEv.kafkaEventFailed])
  | Except.ok msg =>
    let received := TraceEv.kafkaEventReceived msg.payload_len
    match msg.payload with
    | none => (none, [received])
    | some payload =>
      let event := mapMessage config msg payload input.now
      let store := TraceEv.storeOffset msg.topic msg.partition msg.offset input.storeOk
      if input.storeOk then (some event, [received, store])
      else (none, [received, store, TraceEv.kafkaOffsetUpdateFailed])

/-- The body of the `.for_each(...)` closure (lines 225–234): `Ok` items are
sent downstream, a failed send is reported via an `error!` log event, `Err`
items are dropped silently. -/
def forwardItem (item : Option LogRec) (sendOk : Bool) : List TraceEv :=
  match item with
  | none => []
  | some record =>
    TraceEv.sendAttempt record :: (if sendOk then [] else [TraceEv.sinkSendError])

/-- One full iteration of the stream pipeline: the `.then` stage followed by
the `.for_each` stage for the item it produced. -/
def loopIteration (config : KafkaSourceConfig) (input : LoopInput) : List TraceEv :=
  let step := processMessage config input
  step.2 ++ forwardItem step.1 input.sendOk

/-- The ingestion loop over the items the broker stream yields before the
shutdown signal cuts it off: each item is fully processed (mapped,
offset-stored, forwarded) before the next one, and the future then resolves
`Ok(())` (line 236). -/
def runLoop (config : KafkaSourceConfig) :
    List LoopInput → List TraceEv × Except Unit Unit
  | [] => ([], Except.ok ())
  | input :: rest =>
    let tail := runLoop config rest
    (loopIteration config input ++ tail.1, tail.2)

/-- `stream().take_until(shutdown)`: the shutdown signal is raced against
the pull of the next raw message, so when it resolves before the `k`-th
pull only the first `k` items are processed; `none` means the signal never
resolves. -/
def takeUntilShutdown (shutdownAt : Option Nat) (inputs : List LoopInput) :
    List LoopInput :=
  match shutdownAt with
  | none => inputs
  | some k => inputs.take k

/-- The source future built by `kafka_source`: the ingestion loop over the
stream truncated by the shutdown signal. -/
def runSource (config : KafkaSourceConfig) (shutdownAt : Option Nat)
    (inputs : List LoopInput) : List TraceEv × Except Unit Unit :=
  runLoop config (takeUntilShutdown shutdownAt inputs)

/-- The records that reach the Forwarder in a trace (the `out.send` calls). -/
def sentRecords : List TraceEv → List LogRec
  | [] => []
  | TraceEv.sendAttempt r :: rest => r :: sentRecords rest
  | _ :: rest => sentRecords rest

/-- How many times a given trace event occurs. -/
def countEv (ev : TraceEv) : List TraceEv → Nat
  | [] => 0
  | e :: rest => (if e = ev then 1 else 0) + countEv ev rest

/-- The external client library's option mapping (`ClientConfig`): a map from
option name to value, here an association list with unique keys. -/
abbrev ClientConfig := List (String × String)

/-- `ClientConfig::set`: replace an existing option or append a new one. -/
def ClientConfig.set : ClientConfig → String → String → ClientConfig
  | [], k, v => [(k, v)]
  | (k0, v0) :: rest, k, v =>
    if k0 = k then (k, v) :: rest else (k0, v0) :: ClientConfig.set rest k v

/-- Option lookup in a client-option mapping. -/
def ClientConfig.get : ClientConfig → String → Option String
  | [], _ => none
  | (k0, v0) :: rest, k => if k0 = k then some v0 else ClientConfig.get rest k

/-- Apply a list of `set` calls in order. -/
def ClientConfig.setAll (cc : ClientConfig) (opts : List (String × String)) :
    ClientConfig :=
  opts.foldl (fun acc kv => acc.set kv.1 kv.2) cc

/-- The eleven fixed `set` calls of `create_consumer` (lines 242–256), in
source order. -/
def baseClientConfig (config : KafkaSourceConfig) : ClientConfig :=
  let cc : ClientConfig := []
  let cc := cc.set "group.id" config.group_id
  let cc := cc.set "bootstrap.servers" config.bootstrap_servers
  let cc := cc.set "auto.offset.reset" config.auto_offset_reset
  let cc := cc.set "session.timeout.ms" (toString config.session_timeout_ms)
  let cc := cc.set "socket.timeout.ms" (toString config.socket_timeout_ms)
  let cc := cc.set "fetch.wait.max.ms" (toString config.fetch_wait_max_ms)
  let cc := cc.set "enable.partition.eof" "false"
  let cc := cc.set "enable.auto.commit" "true"
  let cc := cc.set "auto.commit.interval.ms" (toString config.commit_interval_ms)
  let cc := cc.set "enable.auto.offset.store" "false"
  cc.set "client.id" "vector"

/-- The client-option mapping built by `create_consumer` (lines 241–264):
the eleven fixed `set` calls in source order, then the authentication
settings (`config.auth.apply`, modelled as the option list it sets), then
the free-form `librdkafka_options` overrides, applied last. -/
def buildClientConfig (config : KafkaSourceConfig) : ClientConfig :=
  let cc := (baseClientConfig config).setAll config.auth
  match config.librdkafka_options with
  | some opts => cc.setAll opts
  | none => cc

/-- Modelled from the spec: the external client library's error type, opaque
to the core beyond being carried as the underlying cause of a `BuildError`. -/
inductive KafkaError where
  | invalidConfig (detail : String)
deriving DecidableEq, Repr

/-- The two fatal startup errors (`BuildError`), each carrying the
underlying client-library cause. -/
inductive BuildError where
  | kafkaCreateError (source : KafkaError)
  | kafkaSubscribeError (source : KafkaError)
deriving DecidableEq, Repr

/-- Modelled from the spec: the offset-reset policy values the external
broker client accepts (a broker-defined string enum such as
"earliest"/"latest"; any other value is malformed configuration). -/
def validAutoOffsetReset (s : String) : Bool :=
  s ∈ ["smallest", "earliest", "beginning", "largest", "latest", "end", "error"]

/-- The consumer handle produced by a successful `ClientConfig::create`
followed by `subscribe`. -/
structure StreamConsumer where
  clientConfig : ClientConfig
  subscribedTopics : List String
deriving DecidableEq, Repr

/-- Modelled from the spec: `ClientConfig::create` — the external client
constructor, which fails with an underlying cause on malformed
configuration, in particular on an invalid offset-reset policy value. -/
def clientCreate (cc : ClientConfig) : Except KafkaError StreamConsumer :=
  match cc.get "auto.offset.reset" with
  | some s =>
    if validAutoOffsetReset s then Except.ok ⟨cc, []⟩
    else Except.error (KafkaError.invalidConfig "auto.offset.reset")
  | none => Except.ok ⟨cc, []⟩

/-- `create_consumer` (lines 240–271): build the option mapping, create the
client (`.context(KafkaCreateError)`), subscribe to the configured topics.
The subscription call itself is external; it is modelled from the spec as
the client-side registration of the topic list. -/
def create_consumer (config : KafkaSourceConfig) : Except BuildError StreamConsumer :=
  let client_config := buildClientConfig config
  match clientCreate client_config with
  | Except.error e => Except.error (BuildError.kafkaCreateError e)
  | Except.ok consumer =>
    Except.ok { consumer with subscribedTopics := config.topics }

/-- `kafka_source` (lines 137–238): create the consumer — propagating a
`BuildError` with `?`, in which case no source future and hence no
Ingestion Loop is ever built — and otherwise return the source future,
here the function running the loop on a given stream of inputs under a
given shutdown point. -/
def kafka_source (config : KafkaSourceConfig) :
    Except BuildError (Option Nat → List LoopInput → List TraceEv × Except Unit Unit) :=
  match create_consumer config with
  | Except.error e => Except.error e
  | Except.ok _ => Except.ok (fun shutdownAt inputs => runSource config shutdownAt inputs)

/-! ## Helper lemmas on field and option maps -/

theorem LogRec.get_insert_self (l : LogRec) (k : String) (v : Value) :
    (l.insert k v).get k = some v := by
  induction l with
  | nil => simp [LogRec.insert, LogRec.get]
  | cons hd tl ih =>
    obtain ⟨k0, v0⟩ := hd
    by_cases h : k0 = k
    · simp [LogRec.insert, LogRec.get, h]
    · simp [LogRec.insert, LogRec.get, h, ih]

theorem LogRec.get_insert_ne (l : LogRec) (k k' : String) (v : Value)
    (h : k' ≠ k) : (l.insert k' v).get k = l.get k := by
  induction l with
  | nil => simp [LogRec.insert, LogRec.get, h]
  | cons hd tl ih =>
    obtain ⟨k0, v0⟩ := hd
    by_cases h0 : k0 = k'
    · simp [LogRec.insert, LogRec.get, h0, h]
    · simp only [LogRec.insert, LogRec.get, h0, if_false]
      by_cases h1 : k0 = k <;> simp [h1, ih]

theorem ClientConfig.get_set_self (cc : ClientConfig) (k v : String) :
    (cc.set k v).get k = some v := by
  induction cc with
  | nil => simp [ClientConfig.set, ClientConfig.get]
  | cons hd tl ih =>
    obtain ⟨k0, v0⟩ := hd
    by_cases h : k0 = k
    · simp [ClientConfig.set, ClientConfig.get, h]
    · simp [ClientConfig.set, ClientConfig.get, h, ih]

theorem ClientConfig.get_set_ne (cc : ClientConfig) (k k' v : String)
    (h : k' ≠ k) : (cc.set k' v).get k = cc.get k := by
  induction cc with
  | nil => simp [ClientConfig.set, ClientConfig.get, h]
  | cons hd tl ih =>
    obtain ⟨k0, v0⟩ := hd
    by_cases h0 : k0 = k'
    · simp [ClientConfig.set, ClientConfig.get, h0, h]
    · simp only [ClientConfig.set, ClientConfig.get, h0, if_false]
      by_cases h1 : k0 = k <;> simp [h1, ih]

/-- The value the last `set` of a given key in a list of option pairs would
leave behind, if any. -/
def lastSetValue : List (String × String) → String → Option String
  | [], _ => none
  | kv :: rest, k =>
    match lastSetValue rest k with
    | some v => some v
    | none => if kv.1 = k then some kv.2 else none

theorem ClientConfig.get_setAll (cc : ClientConfig)
    (opts : List (String × String)) (k : String) :
    (cc.setAll opts).get k =
      match lastSetValue opts k with
      | some v => some v
      | none => cc.get k := by
  induction opts generalizing cc with
  | nil => simp [ClientConfig.setAll, lastSetValue]
  | cons hd tl ih =>
    obtain ⟨k0, v0⟩ := hd
    simp only [ClientConfig.setAll, List.foldl_cons] at ih ⊢
    rw [ih (cc.set k0 v0)]
    simp only [lastSetValue]
    cases htl : lastSetValue tl k with
    | some v => simp
    | none =>
      by_cases h : k0 = k
      · subst h
        simp [ClientConfig.get_set_self]
      · simp [h, ClientConfig.get_set_ne cc k k0 v0 h]

theorem lastSetValue_eq_none (opts : List (String × String)) (k : String)
    (h : ∀ kv ∈ opts, kv.1 ≠ k) : lastSetValue opts k = none := by
  induction opts with
  | nil => rfl
  | cons hd tl ih =>
    have htl := ih (fun kv hm => h kv (List.mem_cons_of_mem _ hm))
    have hhd := h hd (List.mem_cons_self _ _)
    simp [lastSetValue, htl, hhd]

/-! ## Helper lemmas on the loop -/

/-- Characterization of the `.then` closure on a successfully pulled message
with a present payload: the record is built, the offset-store effect is
attempted, and the record survives exactly when the store succeeded. -/
theorem processMessage_ok (config : KafkaSourceConfig) (input : LoopInput)
    (msg : RawMessage) (payload : List Nat)
    (hmsg : input.msg = Except.ok msg) (hpay : msg.payload = some payload) :
    processMessage config input =
      if input.storeOk then
        (some (mapMessage config msg payload input.now),
         [TraceEv.kafkaEventReceived payload.length,
          TraceEv.storeOffset msg.topic msg.partition msg.offset true])
      else
        (none,
         [TraceEv.kafkaEventReceived payload.length,
          TraceEv.storeOffset msg.topic msg.partition msg.offset false,
          TraceEv.kafkaOffsetUpdateFailed]) := by
  cases hst : input.storeOk <;>
    simp [processMessage, hmsg, hpay, RawMessage.payload_len, hst]

/-- A record comes out of the `.then` closure only from a successfully
pulled message with a present payload whose offset store succeeded, and it
is exactly the mapped record. -/
theorem processMessage_some (config : KafkaSourceConfig) (input : LoopInput)
    (record : LogRec) (hrec : (processMessage config input).1 = some record) :
    ∃ msg payload, input.msg = Except.ok msg ∧ msg.payload = some payload ∧
      input.storeOk = true ∧
      record = mapMessage config msg payload input.now ∧
      (processMessage config input).2 =
        [TraceEv.kafkaEventReceived payload.length,
         TraceEv.storeOffset msg.topic msg.partition msg.offset true] := by
  match hmsg : input.msg with
  | Except.error e =>
    rw [show processMessage config input = (none, [TraceEv.kafkaEventFailed]) by
      simp [processMessage, hmsg]] at hrec
    exact absurd hrec (by simp)
  | Except.ok msg =>
    match hpay : msg.payload with
    | none =>
      rw [show processMessage config input =
          (none, [TraceEv.kafkaEventReceived 0]) by
        simp [processMessage, hmsg, hpay, RawMessage.payload_len]] at hrec
      exact absurd hrec (by simp)
    | some payload =>
      have hchar := processMessage_ok config input msg payload hmsg hpay
      cases hst : input.storeOk with
      | false =>
        rw [hchar, hst] at hrec
        exact absurd hrec (by simp)
      | true =>
        rw [hchar, hst] at hrec
        simp only [if_true] at hrec
        refine ⟨msg, payload, rfl, hpay, rfl, ?_, ?_⟩
        · exact (Option.some_injective _ hrec.symm)
        · rw [hchar, hst]; simp

/-- The loop processes one pulled item completely, then continues with the
rest of the stream, whatever the item's outcome was. -/
theorem runLoop_cons (config : KafkaSourceConfig) (input : LoopInput)
    (rest : List LoopInput) :
    runLoop config (input :: rest) =
      (loopIteration config input ++ (runLoop config rest).1,
       (runLoop config rest).2) := rfl

/-- The loop future always resolves `Ok(())`. -/
theorem runLoop_ok (config : KafkaSourceConfig) (inputs : List LoopInput) :
    (runLoop config inputs).2 = Except.ok () := by
  induction inputs with
  | nil => rfl
  | cons hd tl ih => rw [runLoop_cons]; exact ih

theorem sentRecords_append (t1 t2 : List TraceEv) :
    sentRecords (t1 ++ t2) = sentRecords t1 ++ sentRecords t2 := by
  induction t1 with
  | nil => rfl
  | cons hd tl ih => cases hd <;> simp [sentRecords, ih]

/-- Every `out.send` in a trace is preceded by a successful
`consumer.store_offset`. -/
def storeBeforeEverySend (trace : List TraceEv) : Prop :=
  ∀ pre record post, trace = pre ++ TraceEv.sendAttempt record :: post →
    ∃ t p o, TraceEv.storeOffset t p o true ∈ pre

theorem storeBeforeEverySend_of_no_send (trace : List TraceEv)
    (h : ∀ r, TraceEv.sendAttempt r ∉ trace) : storeBeforeEverySend trace := by
  intro pre record post heq
  exact absurd (heq ▸ List.mem_append_right pre (List.mem_cons_self _ _))
    (h record)

/-- `loopIteration` unfolded. -/
theorem loopIteration_eq (config : KafkaSourceConfig) (input : LoopInput) :
    loopIteration config input =
      (processMessage config input).2 ++
        forwardItem (processMessage config input).1 input.sendOk := rfl

theorem storeBeforeEverySend_append (t1 t2 : List TraceEv)
    (h1 : storeBeforeEverySend t1) (h2 : storeBeforeEverySend t2) :
    storeBeforeEverySend (t1 ++ t2) := by
  intro pre record post heq
  rcases List.append_eq_append_iff.mp heq with ⟨mid, hpre, ht2⟩ | ⟨mid, ht1, hmid⟩
  · obtain ⟨t, p, o, hmem⟩ := h2 mid record post ht2
    exact ⟨t, p, o, by rw [hpre]; exact List.mem_append_right t1 hmem⟩
  · match mid, hmid with
    | [], hmid =>
      obtain ⟨t, p, o, hmem⟩ := h2 [] record post (by simpa using hmid.symm)
      exact absurd hmem (List.not_mem_nil _)
    | e :: mid', hmid =>
      have he := List.cons_eq_cons.mp hmid
      obtain ⟨t, p, o, hmem⟩ := h1 pre record mid' (by rw [ht1, he.1])
      exact ⟨t, p, o, hmem⟩

/-- Within one loop iteration, any record handed to the downstream send has
its offset stored (successfully) earlier in that same iteration. -/
theorem storeBeforeEverySend_iteration (config : KafkaSourceConfig)
    (input : LoopInput) : storeBeforeEverySend (loopIteration config input) := by
  match hrec : (processMessage config input).1 with
  | none =>
    apply storeBeforeEverySend_of_no_send
    intro r hmem
    rw [loopIteration_eq, hrec] at hmem
    simp only [forwardItem, List.append_nil] at hmem
    match hmsg : input.msg with
    | Except.error e =>
      rw [show processMessage config input = (none, [TraceEv.kafkaEventFailed]) by
        simp [processMessage, hmsg]] at hmem
      simp at hmem
    | Except.ok msg =>
      match hpay : msg.payload with
      | none =>
        rw [show processMessage config input =
            (none, [TraceEv.kafkaEventReceived 0]) by
          simp [processMessage, hmsg, hpay, RawMessage.payload_len]] at hmem
        simp at hmem
      | some payload =>
        rw [processMessage_ok config input msg payload hmsg hpay] at hmem
        cases hst : input.storeOk <;> rw [hst] at hmem <;> simp at hmem
  | some record =>
    obtain ⟨msg, payload, hmsg, hpay, hst, hmap, htrace⟩ :=
      processMessage_some config input record hrec
    intro pre r post heq
    rw [loopIteration_eq, hrec, htrace] at heq
    simp only [forwardItem] at heq
    refine ⟨msg.topic, msg.partition, msg.offset, ?_⟩
    match pre, heq with
    | [], heq => simp at heq
    | [_], heq => simp at heq
    | e1 :: e2 :: pre', heq =>
      have h2 : e2 = TraceEv.storeOffset msg.topic msg.partition msg.offset true := by
        have := congrArg (fun l => l.get? 1) heq
        simpa using this.symm
      rw [h2]
      exact List.mem_cons_of_mem _ (List.mem_cons_self _ _)

/-- Store-before-send holds for the whole loop trace. -/
theorem storeBeforeEverySend_runLoop (config : KafkaSourceConfig)
    (inputs : List LoopInput) : storeBeforeEverySend (runLoop config inputs).1 := by
  induction inputs with
  | nil => exact storeBeforeEverySend_of_no_send _ (by intro r h; simp [runLoop] at h)
  | cons hd tl ih =>
    rw [runLoop_cons]
    exact storeBeforeEverySend_append _ _
      (storeBeforeEverySend_iteration config hd) ih

/-- The configuration the repository's unit tests build (`make_config`). -/
def make_config : KafkaSourceConfig where
  bootstrap_servers := "localhost:9092"
  topics := ["my-topic"]
  group_id := "group-id"
  auto_offset_reset := "earliest"
  session_timeout_ms := 10000
  socket_timeout_ms := 60000
  fetch_wait_max_ms := 100
  commit_interval_ms := 5000
  key_field := "message_key"
  topic_key := "topic"
  partition_key := "partition"
  offset_key := "offset"
  librdkafka_options := none
  auth := []

/-! ## Claim theorems -/

/-- **C2.** For every raw message whose payload is absent, the Record Mapper
outcome is "skip": no Record is produced, the iteration's only event is the
message-received observability event (no error is surfaced), and the loop
continues to the next message. -/
theorem absent_payload_skips (config : KafkaSourceConfig) (input : LoopInput)
    (msg : RawMessage) (hmsg : input.msg = Except.ok msg)
    (hpay : msg.payload = none) :
    (processMessage config input).1 = none ∧
    loopIteration config input = [TraceEv.kafkaEventReceived 0] ∧
    ∀ rest, runLoop config (input :: rest) =
      (TraceEv.kafkaEventReceived 0 :: (runLoop config rest).1,
       (runLoop config rest).2) := by
  have h1 : processMessage config input = (none, [TraceEv.kafkaEventReceived 0]) := by
    simp [processMessage, hmsg, hpay, RawMessage.payload_len]
  have h2 : loopIteration config input = [TraceEv.kafkaEventReceived 0] := by
    rw [loopIteration_eq, h1]; rfl
  exact ⟨by rw [h1], h2, fun rest => by rw [runLoop_cons, h2]; rfl⟩

theorem absent_payload_skips_witness :
    (processMessage KafkaSourceConfig.default
      ⟨Except.ok ⟨none, none, "t", 0, 0, none⟩, 0, true, true⟩).1 = none ∧
    loopIteration KafkaSourceConfig.default
      ⟨Except.ok ⟨none, none, "t", 0, 0, none⟩, 0, true, true⟩ =
      [TraceEv.kafkaEventReceived 0] := by
  have h := absent_payload_skips KafkaSourceConfig.default
    ⟨Except.ok ⟨none, none, "t", 0, 0, none⟩, 0, true, true⟩
    ⟨none, none, "t", 0, 0, none⟩ rfl rfl
  exact ⟨h.1, h.2.1⟩

/-- **C3.** For every raw message with a present payload, the Record
produced by the Record Mapper has a body (the fixed "message" field) equal
to the payload bytes exactly, with no transformation — both for the mapped
record itself and for any record the per-message closure hands on.  The
configured output field paths are assumed not to collide with the fixed
body field, since a later `insert` on the same path would overwrite it. -/
theorem record_body_equals_payload (config : KafkaSourceConfig)
    (msg : RawMessage) (payload : List Nat) (now : Int)
    (hpay : msg.payload = some payload)
    (h1 : config.key_field ≠ logSchemaMessageKey)
    (h2 : config.topic_key ≠ logSchemaMessageKey)
    (h3 : config.partition_key ≠ logSchemaMessageKey)
    (h4 : config.offset_key ≠ logSchemaMessageKey) :
    (mapMessage config msg payload now).get logSchemaMessageKey =
      some (Value.bytes payload) ∧
    ∀ input record, input.msg = Except.ok msg →
      (processMessage config input).1 = some record →
      record.get logSchemaMessageKey = some (Value.bytes payload) := by
  have hmap : ∀ t : Int, (mapMessage config msg payload t).get logSchemaMessageKey =
      some (Value.bytes payload) := by
    intro t
    simp only [mapMessage]
    rw [LogRec.get_insert_ne _ _ _ _ h4, LogRec.get_insert_ne _ _ _ _ h3,
        LogRec.get_insert_ne _ _ _ _ h2, LogRec.get_insert_ne _ _ _ _ h1,
        LogRec.get_insert_ne _ _ _ _ (by decide),
        LogRec.get_insert_ne _ _ _ _ (by decide),
        LogRec.get_insert_self]
  refine ⟨hmap now, ?_⟩
  intro input record hmsg hrec
  obtain ⟨msg2, payload2, hmsg2, hpay2, _, hmap2, _⟩ :=
    processMessage_some config input record hrec
  rw [hmsg] at hmsg2
  have hm : msg = msg2 := Except.ok.inj hmsg2
  subst hm
  rw [hpay] at hpay2
  have hp : payload = payload2 := Option.some.inj hpay2
  subst hp
  rw [hmap2]
  exact hmap input.now

theorem record_body_equals_payload_witness :
    (mapMessage KafkaSourceConfig.default
      ⟨some [109, 121], none, "my-topic", 0, 5, none⟩ [109, 121] 7).get
        logSchemaMessageKey = some (Value.bytes [109, 121]) :=
  (record_body_equals_payload KafkaSourceConfig.default
    ⟨some [109, 121], none, "my-topic", 0, 5, none⟩ [109, 121] 7
    rfl (by decide) (by decide) (by decide) (by decide)).1

/-- **C4.** For every mapped message, the Record's event timestamp (the
fixed "timestamp" field) is the broker-assigned timestamp whenever it is
present and convertible to a valid calendar time, at millisecond precision,
and otherwise the clock's current time at mapping time.  The wall clock is
the explicit `now` argument of the mapper, so the fallback is a
deterministic function of the injected clock value.  The configured output
field paths are assumed not to collide with the fixed timestamp field. -/
theorem record_timestamp_resolution (config : KafkaSourceConfig)
    (msg : RawMessage) (payload : List Nat) (now : Int)
    (h1 : config.key_field ≠ logSchemaTimestampKey)
    (h2 : config.topic_key ≠ logSchemaTimestampKey)
    (h3 : config.partition_key ≠ logSchemaTimestampKey)
    (h4 : config.offset_key ≠ logSchemaTimestampKey) :
    (mapMessage config msg payload now).get logSchemaTimestampKey =
      some (Value.timestamp (resolveTimestamp msg.timestamp now)) ∧
    (∀ m, msg.timestamp = some m → chronoMillisValid m = true →
      resolveTimestamp msg.timestamp now = m) ∧
    (∀ m, msg.timestamp = some m → chronoMillisValid m = false →
      resolveTimestamp msg.timestamp now = now) ∧
    (msg.timestamp = none → resolveTimestamp msg.timestamp now = now) := by
  refine ⟨?_, ?_, ?_, ?_⟩
  · simp only [mapMessage]
    rw [LogRec.get_insert_ne _ _ _ _ h4, LogRec.get_insert_ne _ _ _ _ h3,
        LogRec.get_insert_ne _ _ _ _ h2, LogRec.get_insert_ne _ _ _ _ h1,
        LogRec.get_insert_ne _ _ _ _ (by decide),
        LogRec.get_insert_self]
  · intro m hm hv; rw [hm]; simp [resolveTimestamp, hv]
  · intro m hm hv; rw [hm]; simp [resolveTimestamp, hv]
  · intro hm; rw [hm]; simp [resolveTimestamp]

theorem record_timestamp_resolution_witness :
    (mapMessage KafkaSourceConfig.default
      ⟨some [1], none, "t", 0, 5, some 1000⟩ [1] 7).get logSchemaTimestampKey =
      some (Value.timestamp (resolveTimestamp (some 1000) 7)) ∧
    resolveTimestamp (some 1000) 7 = 1000 ∧
    resolveTimestamp (some 9000000000000000000) 7 = 7 ∧
    resolveTimestamp none 7 = 7 := by
  have h := record_timestamp_resolution KafkaSourceConfig.default
    ⟨some [1], none, "t", 0, 5, some 1000⟩ [1] 7
    (by decide) (by decide) (by decide) (by decide)
  have h2 := record_timestamp_resolution KafkaSourceConfig.default
    ⟨some [1], none, "t", 0, 5, some 9000000000000000000⟩ [1] 7
    (by decide) (by decide) (by decide) (by decide)
  have h3 := record_timestamp_resolution KafkaSourceConfig.default
    ⟨some [1], none, "t", 0, 5, none⟩ [1] 7
    (by decide) (by decide) (by decide) (by decide)
  exact ⟨h.1, h.2.1 1000 rfl (by decide),
    h2.2.2.1 9000000000000000000 rfl (by decide), h3.2.2.2 rfl⟩

/-- **C5.** For every mapped message, the configured message-key field holds
the key bytes decoded as UTF-8 with lossy substitution of invalid sequences
when the key is present, and is explicitly set to `Value::Null` (the field
is present with a null marker, not omitted) when the key is absent.  The
field paths inserted after the key are assumed not to collide with it. -/
theorem record_message_key_field (config : KafkaSourceConfig)
    (msg : RawMessage) (payload : List Nat) (now : Int)
    (h2 : config.topic_key ≠ config.key_field)
    (h3 : config.partition_key ≠ config.key_field)
    (h4 : config.offset_key ≠ config.key_field) :
    (∀ key, msg.key = some key →
      (mapMessage config msg payload now).get config.key_field =
        some (Value.str (utf8Lossy key))) ∧
    (msg.key = none →
      (mapMessage config msg payload now).get config.key_field =
        some Value.null) := by
  have hget : (mapMessage config msg payload now).get config.key_field =
      some (match msg.key with
        | some key => Value.str (utf8Lossy key)
        | none => Value.null) := by
    simp only [mapMessage]
    rw [LogRec.get_insert_ne _ _ _ _ h4, LogRec.get_insert_ne _ _ _ _ h3,
        LogRec.get_insert_ne _ _ _ _ h2, LogRec.get_insert_self]
  constructor
  · intro key hk; rw [hget, hk]
  · intro hk; rw [hget, hk]

theorem record_message_key_field_witness :
    (mapMessage KafkaSourceConfig.default
      ⟨some [1], some [109, 255], "t", 0, 5, none⟩ [1] 7).get
        KafkaSourceConfig.default.key_field = some (Value.str "m�") ∧
    (mapMessage KafkaSourceConfig.default
      ⟨some [1], none, "t", 0, 5, none⟩ [1] 7).get
        KafkaSourceConfig.default.key_field = some Value.null := by
  have h1 := (record_message_key_field KafkaSourceConfig.default
    ⟨some [1], some [109, 255], "t", 0, 5, none⟩ [1] 7
    (by decide) (by decide) (by decide)).1 [109, 255] rfl
  have h2 := (record_message_key_field KafkaSourceConfig.default
    ⟨some [1], none, "t", 0, 5, none⟩ [1] 7
    (by decide) (by decide) (by decide)).2 rfl
  refine ⟨?_, h2⟩
  rw [h1]
  simp [utf8Lossy, utf8LossyChars, utf8DecodeStep, replacementChar, isCont]

/-- **C1.** For every raw message that maps successfully (payload present),
if storing the message's consumption position fails, then the
position-update-failed event is reported exactly once for that message, the
already-built Record is discarded — nothing reaches the Forwarder in that
iteration — and the loop continues with the remaining messages. -/
theorem position_store_failure_drops_record (config : KafkaSourceConfig)
    (input : LoopInput) (msg : RawMessage) (payload : List Nat)
    (hmsg : input.msg = Except.ok msg) (hpay : msg.payload = some payload)
    (hstore : input.storeOk = false) :
    (processMessage config input).1 = none ∧
    loopIteration config input =
      [TraceEv.kafkaEventReceived payload.length,
       TraceEv.storeOffset msg.topic msg.partition msg.offset false,
       TraceEv.kafkaOffsetUpdateFailed] ∧
    countEv TraceEv.kafkaOffsetUpdateFailed (loopIteration config input) = 1 ∧
    sentRecords (loopIteration config input) = [] ∧
    ∀ rest, runLoop config (input :: rest) =
      (loopIteration config input ++ (runLoop config rest).1,
       (runLoop config rest).2) := by
  have hchar := processMessage_ok config input msg payload hmsg hpay
  rw [hstore] at hchar
  simp only [Bool.false_eq_true, if_false] at hchar
  have hiter : loopIteration config input =
      [TraceEv.kafkaEventReceived payload.length,
       TraceEv.storeOffset msg.topic msg.partition msg.offset false,
       TraceEv.kafkaOffsetUpdateFailed] := by
    rw [loopIteration_eq, hchar]
    simp [forwardItem]
  refine ⟨by rw [hchar], hiter, ?_, by rw [hiter]; rfl,
    fun rest => runLoop_cons config input rest⟩
  rw [hiter]
  simp [countEv]

theorem position_store_failure_drops_record_witness :
    (processMessage KafkaSourceConfig.default
      ⟨Except.ok ⟨some [1, 2], none, "t", 0, 5, none⟩, 7, false, true⟩).1 = none ∧
    countEv TraceEv.kafkaOffsetUpdateFailed
      (loopIteration KafkaSourceConfig.default
        ⟨Except.ok ⟨some [1, 2], none, "t", 0, 5, none⟩, 7, false, true⟩) = 1 ∧
    sentRecords (loopIteration KafkaSourceConfig.default
      ⟨Except.ok ⟨some [1, 2], none, "t", 0, 5, none⟩, 7, false, true⟩) = [] := by
  have h := position_store_failure_drops_record KafkaSourceConfig.default
    ⟨Except.ok ⟨some [1, 2], none, "t", 0, 5, none⟩, 7, false, true⟩
    ⟨some [1, 2], none, "t", 0, 5, none⟩ [1, 2] rfl rfl rfl
  exact ⟨h.1, h.2.2.1, h.2.2.2.1⟩

/-- **C9.** For every Record whose downstream delivery fails, the failure is
reported via exactly one sink-error log event, the Record is attempted
exactly once and never re-queued (the remaining trace is exactly the run of
the remaining messages), and the loop proceeds to the next message. -/
theorem forward_failure_continues (config : KafkaSourceConfig)
    (input : LoopInput) (record : LogRec)
    (hrec : (processMessage config input).1 = some record)
    (hsend : input.sendOk = false) :
    loopIteration config input =
      (processMessage config input).2 ++
        [TraceEv.sendAttempt record, TraceEv.sinkSendError] ∧
    countEv TraceEv.sinkSendError (loopIteration config input) = 1 ∧
    countEv (TraceEv.sendAttempt record) (loopIteration config input) = 1 ∧
    ∀ rest, runLoop config (input :: rest) =
      (loopIteration config input ++ (runLoop config rest).1,
       (runLoop config rest).2) := by
  obtain ⟨msg, payload, hmsg, hpay, hst, hmap, htrace⟩ :=
    processMessage_some config input record hrec
  have hiter : loopIteration config input =
      (processMessage config input).2 ++
        [TraceEv.sendAttempt record, TraceEv.sinkSendError] := by
    rw [loopIteration_eq, hrec]
    simp [forwardItem, hsend]
  refine ⟨hiter, ?_, ?_, fun rest => runLoop_cons config input rest⟩
  · rw [hiter, htrace]; simp [countEv]
  · rw [hiter, htrace]; simp [countEv]

theorem forward_failure_continues_witness :
    countEv TraceEv.sinkSendError
      (loopIteration KafkaSourceConfig.default
        ⟨Except.ok ⟨some [1], none, "t", 0, 3, none⟩, 7, true, false⟩) = 1 := by
  have h := forward_failure_continues KafkaSourceConfig.default
    ⟨Except.ok ⟨some [1], none, "t", 0, 3, none⟩, 7, true, false⟩
    (mapMessage KafkaSourceConfig.default ⟨some [1], none, "t", 0, 3, none⟩ [1] 7)
    rfl rfl
  exact h.2.1

/-- **C10.** For every message, the consumption position is stored before
the Record is forwarded downstream: a record only comes out of the
per-message stage when its offset store succeeded, the store effect
precedes the send in the iteration's trace, and in every loop trace each
send is preceded by a successful offset store.  In particular a message
whose downstream delivery fails has already had its offset stored. -/
theorem offset_stored_before_forward (config : KafkaSourceConfig) :
    (∀ input record, (processMessage config input).1 = some record →
      input.storeOk = true ∧
      ∃ msg payload, input.msg = Except.ok msg ∧ msg.payload = some payload ∧
        loopIteration config input =
          TraceEv.kafkaEventReceived payload.length ::
          TraceEv.storeOffset msg.topic msg.partition msg.offset true ::
          TraceEv.sendAttempt record ::
          (if input.sendOk then [] else [TraceEv.sinkSendError])) ∧
    ∀ inputs, storeBeforeEverySend (runLoop config inputs).1 := by
  refine ⟨?_, storeBeforeEverySend_runLoop config⟩
  intro input record hrec
  obtain ⟨msg, payload, hmsg, hpay, hst, hmap, htrace⟩ :=
    processMessage_some config input record hrec
  refine ⟨hst, msg, payload, hmsg, hpay, ?_⟩
  rw [loopIteration_eq, hrec, htrace]
  cases hsend : input.sendOk <;> simp [forwardItem, hsend]

theorem offset_stored_before_forward_witness :
    (⟨Except.ok ⟨some [1], none, "t", 0, 3, none⟩, 7, true, false⟩
      : LoopInput).storeOk = true :=
  ((offset_stored_before_forward KafkaSourceConfig.default).1
    ⟨Except.ok ⟨some [1], none, "t", 0, 3, none⟩, 7, true, false⟩
    (mapMessage KafkaSourceConfig.default ⟨some [1], none, "t", 0, 3, none⟩ [1] 7)
    rfl).1

/-- **C8.** If the shutdown signal resolves before any message arrives, the
Ingestion Loop terminates having produced zero Records and returns
successfully; and because the signal is raced against the pull of the next
raw message, messages past the shutdown point never affect the run. -/
theorem shutdown_before_first_message (config : KafkaSourceConfig)
    (inputs : List LoopInput) :
    runSource config (some 0) inputs = ([], Except.ok ()) ∧
    sentRecords (runSource config (some 0) inputs).1 = [] ∧
    (∀ k more, k ≤ inputs.length →
      runSource config (some k) (inputs ++ more) =
        runSource config (some k) inputs) ∧
    ∀ shutdownAt, (runSource config shutdownAt inputs).2 = Except.ok () := by
  have h0 : runSource config (some 0) inputs = ([], Except.ok ()) := by
    simp [runSource, takeUntilShutdown, runLoop]
  refine ⟨h0, by rw [h0]; rfl, ?_, fun shutdownAt => runLoop_ok config _⟩
  intro k more hk
  simp [runSource, takeUntilShutdown, List.take_append_of_le_length hk]

/-- **C6.** The client-option mapping built for the Consumer Session always
disables automatic position auto-storage and enables periodic automatic
flush of explicitly stored positions at the configured interval — as long
as neither the opaque authentication settings nor the free-form overrides
touch those three options — and the free-form low-level overrides are
applied last, so the last override for any key determines that key's final
value over any default. -/
theorem consumer_options_contract (config : KafkaSourceConfig)
    (hauth : ∀ kv ∈ config.auth,
      kv.1 ≠ "enable.auto.offset.store" ∧ kv.1 ≠ "enable.auto.commit" ∧
        kv.1 ≠ "auto.commit.interval.ms")
    (hopts : ∀ kv ∈ config.librdkafka_options.getD [],
      kv.1 ≠ "enable.auto.offset.store" ∧ kv.1 ≠ "enable.auto.commit" ∧
        kv.1 ≠ "auto.commit.interval.ms") :
    (buildClientConfig config).get "enable.auto.offset.store" = some "false" ∧
    (buildClientConfig config).get "enable.auto.commit" = some "true" ∧
    (buildClientConfig config).get "auto.commit.interval.ms" =
      some (toString config.commit_interval_ms) ∧
    ∀ opts k v, config.librdkafka_options = some opts →
      lastSetValue opts k = some v →
      (buildClientConfig config).get k = some v := by
  have hfinal : ∀ k, (∀ kv ∈ config.auth, kv.1 ≠ k) →
      (∀ kv ∈ config.librdkafka_options.getD [], kv.1 ≠ k) →
      (buildClientConfig config).get k = (baseClientConfig config).get k := by
    intro k hk hok
    have hauthget : ((baseClientConfig config).setAll config.auth).get k =
        (baseClientConfig config).get k := by
      rw [ClientConfig.get_setAll, lastSetValue_eq_none _ _ hk]
    cases hcase : config.librdkafka_options with
    | none => simp only [buildClientConfig, hcase]; exact hauthget
    | some opts =>
      rw [hcase] at hok
      simp only [buildClientConfig, hcase]
      rw [ClientConfig.get_setAll,
        lastSetValue_eq_none _ _ (by simpa using hok)]
      exact hauthget
  refine ⟨?_, ?_, ?_, ?_⟩
  · rw [hfinal _ (fun kv h => (hauth kv h).1) (fun kv h => (hopts kv h).1)]
    simp [baseClientConfig, ClientConfig.get_set_ne, ClientConfig.get_set_self]
  · rw [hfinal _ (fun kv h => (hauth kv h).2.1) (fun kv h => (hopts kv h).2.1)]
    simp [baseClientConfig, ClientConfig.get_set_ne, ClientConfig.get_set_self]
  · rw [hfinal _ (fun kv h => (hauth kv h).2.2) (fun kv h => (hopts kv h).2.2)]
    simp [baseClientConfig, ClientConfig.get_set_ne, ClientConfig.get_set_self]
  · intro opts k v hsome hlast
    simp only [buildClientConfig, hsome]
    rw [ClientConfig.get_setAll, hlast]

theorem consumer_options_contract_witness :
    (buildClientConfig
      { make_config with
        librdkafka_options := some [("queue.buffering.max.ms", "1")] }).get
      "enable.auto.offset.store" = some "false" ∧
    (buildClientConfig
      { make_config with
        librdkafka_options := some [("queue.buffering.max.ms", "1")] }).get
      "queue.buffering.max.ms" = some "1" := by
  have h := consumer_options_contract
    { make_config with librdkafka_options := some [("queue.buffering.max.ms", "1")] }
    (by decide) (by decide)
  exact ⟨h.1, h.2.2.2 [("queue.buffering.max.ms", "1")] "queue.buffering.max.ms" "1"
    rfl (by decide)⟩

/-- **C7.** Consumer Session creation fails with a creation error carrying
the underlying client-library cause whenever the broker client cannot be
constructed; in particular, for every configuration whose effective
offset-reset policy value is invalid, `kafka_source` returns the error and
never produces a source future, so no Ingestion Loop runs. -/
theorem invalid_offset_reset_fails_creation (config : KafkaSourceConfig) :
    (∀ e, clientCreate (buildClientConfig config) = Except.error e →
      create_consumer config = Except.error (BuildError.kafkaCreateError e) ∧
      kafka_source config = Except.error (BuildError.kafkaCreateError e)) ∧
    ∀ s, (buildClientConfig config).get "auto.offset.reset" = some s →
      validAutoOffsetReset s = false →
      kafka_source config =
        Except.error (BuildError.kafkaCreateError
          (KafkaError.invalidConfig "auto.offset.reset")) ∧
      ∀ loop, kafka_source config ≠ Except.ok loop := by
  have hcc : ∀ e, clientCreate (buildClientConfig config) = Except.error e →
      create_consumer config = Except.error (BuildError.kafkaCreateError e) := by
    intro e he
    simp only [create_consumer, he]
  have hks : ∀ e, create_consumer config = Except.error e →
      kafka_source config = Except.error e := by
    intro e he
    simp only [kafka_source, he]
  refine ⟨fun e he => ⟨hcc e he, hks _ (hcc e he)⟩, ?_⟩
  intro s hs hinv
  have hcreate : clientCreate (buildClientConfig config) =
      Except.error (KafkaError.invalidConfig "auto.offset.reset") := by
    simp [clientCreate, hs, hinv]
  have h1 := hks _ (hcc _ hcreate)
  exact ⟨h1, fun loop hok => by rw [h1] at hok; exact Except.noConfusion hok⟩

theorem invalid_offset_reset_fails_creation_witness :
    kafka_source { make_config with
      auto_offset_reset := "incorrect-auto-offset-reset" } =
      Except.error (BuildError.kafkaCreateError
        (KafkaError.invalidConfig "auto.offset.reset")) :=
  ((invalid_offset_reset_fails_creation
      { make_config with auto_offset_reset := "incorrect-auto-offset-reset" }).2
    "incorrect-auto-offset-reset" (by decide) (by decide)).1

theorem shutdown_before_first_message_witness :
    runSource KafkaSourceConfig.default (some 0)
      [⟨Except.ok ⟨some [1], none, "t", 0, 3, none⟩, 7, true, true⟩] =
      ([], Except.ok ()) ∧
    runSource KafkaSourceConfig.default (some 1)
      ([⟨Except.ok ⟨some [1], none, "t", 0, 3, none⟩, 7, true, true⟩] ++
        [⟨Except.ok ⟨some [2], none, "u", 1, 4, none⟩, 8, true, true⟩]) =
      runSource KafkaSourceConfig.default (some 1)
        [⟨Except.ok ⟨some [1], none, "t", 0, 3, none⟩, 7, true, true⟩] := by
  have h := shutdown_before_first_message KafkaSourceConfig.default
    [⟨Except.ok ⟨some [1], none, "t", 0, 3, none⟩, 7, true, true⟩]
  exact ⟨h.1, h.2.2.1 1
    [⟨Except.ok ⟨some [2], none, "u", 1, 4, none⟩, 8, true, true⟩] (by decide)⟩
